import Mathlib

/-!
Verification development for the Tarkov Market map extractor
(`scripts/extract_tarkov_market_maps.py`).

The script drives a browser over a fixed list of map pages.  For each page,
`extract_map_svg` probes an ordered list of CSS selectors, queries all matching
elements, serializes each element's outer markup, and accepts the first
serialization longer than 10000 characters; if no selector probe accepts, a
whole-document JavaScript pass returns the largest `svg` serialization.  `main`
creates the output directory, then for each target extracts, prepends an XML
declaration when the markup does not already start with `<?xml`, and writes
`<name>.svg`; any exception inside the per-target block (including a failed
file write) is caught, the target's name is appended to the failure list, and
the loop continues.

We shallow-embed the script: markup strings become `List Char`, a page becomes
the per-selector query outcomes plus the document's `svg` serializations, the
filesystem becomes a partial map from file names to contents, and exceptions
become `Except Unit`.
-/

namespace TarkovMaps

/-- Markup strings, embedded as character lists (Python `str`). -/
abbrev Str := List Char

/-- Coerce a Lean string literal to the embedding's string type. -/
def str (s : String) : Str := s.toList

/-- Python `s.startswith(p)` (source line 135: `svg_content.startswith('<?xml')`). -/
def py_startswith : Str → Str → Bool
  | _, [] => true
  | [], _ :: _ => false
  | c :: s₂, d :: p₂ => c == d && py_startswith s₂ p₂

/-- The ordered selector list `svg_selectors` (source lines 44-52). -/
def svg_selectors : List String :=
  [ "svg.svg-map",
    ".map-container svg",
    ".map-wrapper svg",
    "svg[viewBox]",
    "#map svg",
    ".leaflet-container svg",
    "svg" ]

/-- The size threshold from `len(content) > 10000` (source line 66). -/
def threshold : Nat := 10000

/-- The acceptance test of the probing loop, `content and len(content) > 10000`
(source line 66): the serialization is truthy and longer than the threshold. -/
def accepts (s : Str) : Bool := !s.isEmpty && decide (s.length > threshold)

/-- The inner loop over one selector's elements (source lines 61-69): each
element's `evaluate` either raises (`Except.error`) or yields the outer markup;
the first accepted markup is returned, and a raise aborts the whole selector
(the surrounding `try` catches it), yielding no acceptance. -/
def probeElems : List (Except Unit Str) → Option Str
  | [] => none
  | Except.error _ :: _ => none
  | Except.ok s :: rest => if accepts s then some s else probeElems rest

/-- One selector probe (source lines 57-75): `query_selector_all` either raises
(`Except.error`, caught by the `except`, no acceptance) or yields the element
list, which the inner loop scans. -/
def probeSelector : Except Unit (List (Except Unit Str)) → Option Str
  | Except.error _ => none
  | Except.ok elems => probeElems elems

/-- The outer probing loop (source lines 56-75): try each selector in order,
stopping at the first acceptance (`if svg_content: break`). -/
def probeSelectors : List (Except Unit (List (Except Unit Str))) → Option Str
  | [] => none
  | q :: rest =>
    match probeSelector q with
    | some s => some s
    | none => probeSelectors rest

/-- A loaded page: for each selector string, the outcome of
`query_selector_all` plus per-element `evaluate` (an exception, or the list of
outer serializations each possibly raising); and the outer serializations of
every `svg` element in document order, as seen by the fallback JavaScript
pass (`document.querySelectorAll('svg')`, source line 83). -/
structure Page where
  query : String → Except Unit (List (Except Unit Str))
  docSvgs : List Str

/-- The fallback JavaScript loop (source lines 84-95): keep the serialization
whose length strictly exceeds the running maximum, starting from
`largestSvg = null; maxSize = 0`. -/
def largestGo : List Str → Option Str → Nat → Option Str
  | [], best, _ => best
  | html :: rest, best, maxSize =>
    if html.length > maxSize then largestGo rest (some html) html.length
    else largestGo rest best maxSize

/-- The fallback pass `page.evaluate(...)` (source lines 80-97): largest `svg`
outer serialization in the document, `none` when none is ever selected. -/
def largestSvg (svgs : List Str) : Option Str := largestGo svgs none 0

/-- `extract_map_svg` (source lines 34-99), after navigation: probe the
selectors in order; if nothing was accepted (`if not svg_content:`), run the
whole-document fallback. -/
def extract_map_svg (page : Page) : Option Str :=
  match probeSelectors (svg_selectors.map page.query) with
  | some s => some s
  | none => largestSvg page.docSvgs

/-- The prefix tested by `svg_content.startswith('<?xml')` (source line 135). -/
def xmlMagic : Str := str "<?xml"

/-- The declaration line prepended at source line 136. -/
def xmlHeader : Str := str "<?xml version=\"1.0\" encoding=\"UTF-8\"?>\n"

/-- The normalization before write (source lines 134-136): prepend the XML
declaration line unless the markup already starts with `<?xml`. -/
def add_xml_header (s : Str) : Str :=
  if py_startswith s xmlMagic then s else xmlHeader ++ s

/-- One entry of the `MAPS` list (source lines 16-28). -/
structure Target where
  name : String
  url : String

/-- The per-target environment: the outcome of `extract_map_svg` for this
target (`Except.error` models a propagated navigation/evaluation exception,
`Except.ok` its return value, possibly `None`), and whether the file write
at source lines 138-139 succeeds. -/
structure TargetEnv where
  extractResult : Except Unit (Option Str)
  writeOk : Bool

/-- The filesystem: file name to contents, `none` when absent. -/
def Files : Type := String → Option Str

/-- `open(path, "w")` followed by `write` (source lines 138-139): truncate and
replace the file's contents. -/
def writeFile (fs : Files) (n : String) (c : Str) : Files :=
  fun m => if m = n then some c else fs m

/-- The run state threaded through the loop of `main`: filesystem,
`extracted_count`, `failed_maps`. -/
abbrev RunState := Files × Nat × List String

/-- One iteration of the loop in `main` (source lines 124-149): on a truthy
extraction result, normalize and write (`<name>.svg`), incrementing the
count; on a falsy result append the name to the failure list; any exception
raised inside the `try` block — a propagated extraction error or a failed
file write — is caught and the name is appended to the failure list. -/
def processTarget (st : RunState) (p : Target × TargetEnv) : RunState :=
  let (fs, cnt, failed) := st
  let (t, env) := p
  match env.extractResult with
  | Except.error _ => (fs, cnt, failed ++ [t.name])
  | Except.ok none => (fs, cnt, failed ++ [t.name])
  | Except.ok (some s) =>
    if s.isEmpty then (fs, cnt, failed ++ [t.name])
    else if env.writeOk then
      (writeFile fs (t.name ++ ".svg") (add_xml_header s), cnt + 1, failed)
    else (fs, cnt, failed ++ [t.name])

/-- The loop of `main` over all targets (source lines 121-149), starting from
`extracted_count = 0` and `failed_maps = []`. -/
def run_loop (pairs : List (Target × TargetEnv)) (fs : Files) : RunState :=
  List.foldl processTarget (fs, 0, []) pairs

/-- The final summary printed by `main` (source lines 154-160). -/
structure RunSummary where
  total : Nat
  extracted : Nat
  failed : List String
deriving DecidableEq

/-- `main` (source lines 102-162): `os.makedirs` is outside any `try`, so its
failure propagates and aborts the run; otherwise the loop runs to completion
and the summary is reported. -/
def run_main (mkdirsOk : Bool) (pairs : List (Target × TargetEnv)) (fs : Files) :
    Except Unit (Files × RunSummary) :=
  if mkdirsOk then
    let r := run_loop pairs fs
    Except.ok (r.1, ⟨pairs.length, r.2.1, r.2.2⟩)
  else Except.error ()

/-- Whether a target's iteration takes the success branch: a truthy extraction
result and a successful write. -/
def succeedsB (env : TargetEnv) : Bool :=
  match env.extractResult with
  | Except.ok (some s) => !s.isEmpty && env.writeOk
  | _ => false

/-- The filesystem component of one loop iteration. -/
def stepFs (fs : Files) (p : Target × TargetEnv) : Files :=
  match p.2.extractResult with
  | Except.ok (some s) =>
    if !s.isEmpty && p.2.writeOk then writeFile fs (p.1.name ++ ".svg") (add_xml_header s)
    else fs
  | _ => fs

/-- File names written by a run. -/
def writtenNames (pairs : List (Target × TargetEnv)) : List String :=
  (pairs.filter fun p => succeedsB p.2).map fun p => p.1.name ++ ".svg"

/-- The empty filesystem. -/
def emptyFiles : Files := fun _ => none

/-- Drop everything up to and including the first newline. -/
def dropFirstLine (s : Str) : Str := (s.dropWhile (· != '\n')).drop 1

/-- A markup string that already begins with two XML declaration lines. -/
def dblDecl : Str := str "<?xml version=\"1.0\"?>\n<?xml version=\"1.0\"?>\n<svg/>"

/-- A sample target. -/
def exTargetA : Target := ⟨"Alpha", "https://tarkov-market.com/maps/a"⟩

/-- A second sample target. -/
def exTargetB : Target := ⟨"Beta", "https://tarkov-market.com/maps/b"⟩

/-- An environment whose extraction succeeds but whose file write raises. -/
def exEnvWriteFail : TargetEnv := ⟨Except.ok (some (str "<svg>map</svg>")), false⟩

/-- An environment whose extraction and write both succeed. -/
def exEnvOk : TargetEnv := ⟨Except.ok (some (str "<svg>map</svg>")), true⟩

/-- A large serialization, above the 10000-character threshold. -/
def bigSvg : Str := str "<svg>" ++ List.replicate threshold 'a' ++ str "</svg>"

/-- A small serialization, far below the threshold. -/
def smallIcon : Str := str "<svg>icon</svg>"

/-- A selector assignment where the most specific selector matches only a
small icon and a later selector matches the large map graphic. -/
def exProbe (sel : String) : List Str :=
  if sel = "svg.svg-map" then [smallIcon]
  else if sel = ".map-container svg" then [bigSvg]
  else []

/-- A page where every selector probe matches nothing, and the document holds
one small graphic element, so only the fallback can find it. -/
def exFallbackPage : Page :=
  ⟨fun _ => Except.ok [], [str "<svg/>"]⟩

/-- A third sample target. -/
def exTargetC : Target := ⟨"Gamma", "https://tarkov-market.com/maps/c"⟩

/-- An environment whose extraction returns `None` (absent). -/
def exEnvAbsent : TargetEnv := ⟨Except.ok none, true⟩

/-- The content a target's iteration would write, when it writes. -/
def writtenContent (env : TargetEnv) : Option Str :=
  match env.extractResult with
  | Except.ok (some s) => some (add_xml_header s)
  | _ => none

/-- The prepended declaration line makes the content start with `<?xml`. -/
theorem py_startswith_header (s : Str) : py_startswith (xmlHeader ++ s) xmlMagic = true := rfl

/-- C7: the selector patterns are tried in exactly this fixed order, most
specific first — dedicated map-graphic class, two container-scoped selectors,
the viewBox-attribute selector, an ID-scoped selector, the mapping-library
container selector, and the unscoped graphic-element selector — seven in
total. -/
theorem selectors_fixed_order :
    svg_selectors =
      [ "svg.svg-map", ".map-container svg", ".map-wrapper svg", "svg[viewBox]",
        "#map svg", ".leaflet-container svg", "svg" ]
    ∧ svg_selectors.length = 7 :=
  ⟨rfl, rfl⟩

/-- C2 counterexample: a markup that already begins with two XML declaration
lines is written unchanged, so the written content starts with an XML
declaration line twice, not exactly once. -/
theorem xml_header_not_exactly_once :
    add_xml_header dblDecl = dblDecl
    ∧ py_startswith (add_xml_header dblDecl) xmlMagic = true
    ∧ py_startswith (dropFirstLine (add_xml_header dblDecl)) xmlMagic = true := by
  decide

/-- C2 (amended): the written content always starts with `<?xml`; when the raw
markup does not already start with `<?xml` exactly one standard declaration
line is prepended, and otherwise the markup is written unchanged (so duplicate
declarations already present are preserved). -/
theorem add_xml_header_spec (s : Str) :
    py_startswith (add_xml_header s) xmlMagic = true
    ∧ (py_startswith s xmlMagic = false → add_xml_header s = xmlHeader ++ s)
    ∧ (py_startswith s xmlMagic = true → add_xml_header s = s) := by
  refine ⟨?_, ?_, ?_⟩
  · by_cases h : py_startswith s xmlMagic = true
    · simp [add_xml_header, h]
    · simp only [Bool.not_eq_true] at h
      simp [add_xml_header, h, py_startswith_header]
  · intro h; simp [add_xml_header, h]
  · intro h; simp [add_xml_header, h]

/-- Witness for the amended C2 at a concrete markup without a declaration. -/
theorem add_xml_header_spec_witness :
    py_startswith (str "<svg/>") xmlMagic = false
    ∧ add_xml_header (str "<svg/>") = xmlHeader ++ str "<svg/>" :=
  ⟨by decide, (add_xml_header_spec (str "<svg/>")).2.1 (by decide)⟩

/-- C1 counterexample: in a two-target run where the first target's file write
raises and the second succeeds, the run completes normally (no propagated
error), reporting one success and recording the first target as a per-target
failure — the write failure neither propagates nor aborts the run. -/
theorem write_failure_recorded_not_propagated :
    (run_main true [(exTargetA, exEnvWriteFail), (exTargetB, exEnvOk)] emptyFiles).map
        (fun r => (r.2.extracted, r.2.failed))
      = Except.ok (1, ["Alpha"]) := by
  rfl

/-- C1 (amended): a failure to create the output directory propagates and
aborts the run, but a filesystem failure during a per-target write is caught
by that target's handler: the target's name is appended to the failure list
and the loop continues with the remaining targets. -/
theorem write_failure_per_target (t : Target) (env : TargetEnv) (s : Str)
    (rest : List (Target × TargetEnv)) (fs : Files) (cnt : Nat) (failed : List String)
    (h1 : env.extractResult = Except.ok (some s)) (h2 : s.isEmpty = false)
    (h3 : env.writeOk = false) :
    List.foldl processTarget (fs, cnt, failed) ((t, env) :: rest)
      = List.foldl processTarget (fs, cnt, failed ++ [t.name]) rest
    ∧ ∀ (pairs : List (Target × TargetEnv)) (g : Files),
        run_main false pairs g = Except.error () := by
  constructor
  · show List.foldl processTarget (processTarget (fs, cnt, failed) (t, env)) rest = _
    congr 1
    simp [processTarget, h1, h2, h3]
  · intro pairs g; rfl

/-- Witness for the amended C1 at a concrete write-failing target. -/
theorem write_failure_per_target_witness :
    exEnvWriteFail.extractResult = Except.ok (some (str "<svg>map</svg>"))
    ∧ (str "<svg>map</svg>").isEmpty = false
    ∧ exEnvWriteFail.writeOk = false
    ∧ (List.foldl processTarget (emptyFiles, 0, []) [(exTargetA, exEnvWriteFail)]
        = List.foldl processTarget (emptyFiles, 0, [] ++ [exTargetA.name]) []
      ∧ ∀ (pairs : List (Target × TargetEnv)) (g : Files),
          run_main false pairs g = Except.error ()) :=
  ⟨rfl, by decide, rfl,
    write_failure_per_target exTargetA exEnvWriteFail (str "<svg>map</svg>") [] emptyFiles 0 []
      rfl (by decide) rfl⟩

/-- The probing acceptance test equals the bare length-threshold test: a
serialization longer than 10000 characters is necessarily truthy. -/
theorem accepts_eq_length : ∀ s : Str, accepts s = decide (s.length > threshold)
  | [] => rfl
  | _ :: _ => rfl

/-- On a list of successfully serialized elements, the inner probing loop
returns the first accepted serialization. -/
theorem probeElems_ok (l : List Str) :
    probeElems (l.map Except.ok) = l.find? accepts := by
  induction l with
  | nil => rfl
  | cons s rest ih =>
    simp only [List.map_cons, probeElems]
    cases h : accepts s <;> simp [h, ih]

/-- When every query and every element evaluation succeeds, the probing loop
over all selectors returns the first accepted serialization across the
concatenated candidate lists. -/
theorem probeSelectors_ok (qs : List (List Str)) :
    probeSelectors (qs.map fun l => Except.ok (l.map Except.ok))
      = qs.flatten.find? accepts := by
  induction qs with
  | nil => rfl
  | cons l rest ih =>
    simp only [List.map_cons, probeSelectors, probeSelector, probeElems_ok,
      List.flatten_cons, List.find?_append]
    cases h : l.find? accepts <;> simp [h, ih, Option.or]

/-- C3: with all probes succeeding and some candidate above the threshold, the
accepted result is the first serialized element, scanning selectors in order
and each selector's elements in document order, whose length strictly exceeds
10000; probing stops there, so an earlier below-threshold match is skipped in
favor of a later above-threshold one. -/
theorem extract_first_accepted (f : String → List Str) (doc : List Str)
    (h : ∃ s ∈ (svg_selectors.map f).flatten, s.length > threshold) :
    extract_map_svg ⟨fun sel => Except.ok ((f sel).map Except.ok), doc⟩
      = ((svg_selectors.map f).flatten).find? (fun s => s.length > threshold) := by
  have hacc : (fun s : Str => decide (s.length > threshold)) = accepts :=
    funext fun s => (accepts_eq_length s).symm
  have hq : (svg_selectors.map fun sel =>
        (Except.ok ((f sel).map Except.ok) : Except Unit (List (Except Unit Str))))
      = ((svg_selectors.map f).map fun l =>
        (Except.ok (l.map Except.ok) : Except Unit (List (Except Unit Str)))) := by
    simp [List.map_map]
  unfold extract_map_svg
  show (match probeSelectors (svg_selectors.map fun sel => Except.ok ((f sel).map Except.ok)) with
    | some s => some s
    | none => largestSvg doc) = _
  rw [hq, probeSelectors_ok]
  obtain ⟨s, hmem, hlen⟩ := h
  have hne : ((svg_selectors.map f).flatten).find? accepts ≠ none := by
    rw [Ne, List.find?_eq_none]
    push_neg
    exact ⟨s, hmem, by simp [accepts_eq_length, hlen]⟩
  obtain ⟨t, ht⟩ := Option.ne_none_iff_exists'.mp hne
  rw [hacc, ht]

/-- With only below-threshold serializations before it, an evaluation error
makes the inner loop yield no acceptance for that selector. -/
theorem probeElems_error_none (pre : List Str) (post : List (Except Unit Str))
    (hpre : ∀ s ∈ pre, accepts s = false) :
    probeElems (pre.map Except.ok ++ Except.error () :: post) = none := by
  induction pre with
  | nil => rfl
  | cons s t ih =>
    have hs := hpre s (List.mem_cons_self s t)
    simp only [List.map_cons, List.cons_append, probeElems, hs]
    simp only [Bool.false_eq_true, if_false]
    exact ih fun x hx => hpre x (List.mem_cons_of_mem s hx)

/-- C6: an error raised while querying or serializing under one selector is
non-fatal for the target: whether the query itself raises, or an element
evaluation raises after only below-threshold candidates, probing simply
advances to the next selector pattern. -/
theorem probe_error_skips_selector (pre : List Str) (post : List (Except Unit Str))
    (rest : List (Except Unit (List (Except Unit Str))))
    (hpre : ∀ s ∈ pre, s.length ≤ threshold) :
    probeSelectors (Except.ok (pre.map Except.ok ++ Except.error () :: post) :: rest)
      = probeSelectors rest
    ∧ probeSelectors (Except.error () :: rest) = probeSelectors rest := by
  constructor
  · have h : probeElems (pre.map Except.ok ++ Except.error () :: post) = none := by
      apply probeElems_error_none
      intro s hs
      have := hpre s hs
      simp [accepts_eq_length]
      omega
    simp [probeSelectors, probeSelector, h]
  · rfl

/-- With a non-null accumulator, the fallback loop never returns null. -/
theorem largestGo_isSome (t : List Str) :
    ∀ (r : Str) (m : Nat), largestGo t (some r) m ≠ none := by
  induction t with
  | nil => intro r m h; exact Option.noConfusion h
  | cons a t ih =>
    intro r m
    unfold largestGo
    by_cases h : a.length > m
    · rw [if_pos h]; exact ih a a.length
    · rw [if_neg h]; exact ih r m

/-- If the fallback returns null, every candidate had length zero. -/
theorem largestSvg_none (l : List Str) (h : largestSvg l = none) :
    ∀ s ∈ l, s.length = 0 := by
  induction l with
  | nil => intro s hs; exact absurd hs (List.not_mem_nil s)
  | cons a t ih =>
    unfold largestSvg largestGo at h
    by_cases ha : a.length > 0
    · rw [if_pos ha] at h
      exact absurd h (largestGo_isSome t a a.length)
    · rw [if_neg ha] at h
      intro s hs
      rcases List.mem_cons.mp hs with rfl | hs
      · omega
      · exact ih h s hs

/-- Characterization of the fallback loop from a selected accumulator: either
nothing later is strictly larger and the accumulator wins, or the result is
the first later candidate strictly exceeding everything before it. -/
theorem largestGo_acc_spec (l : List Str) :
    ∀ (r res : Str), largestGo l (some r) r.length = some res →
      (res = r ∧ ∀ s ∈ l, s.length ≤ r.length)
      ∨ (∃ l₁ l₂, l = l₁ ++ res :: l₂ ∧ r.length < res.length
          ∧ (∀ s ∈ l₁, s.length < res.length) ∧ (∀ s ∈ l₂, s.length ≤ res.length)) := by
  induction l with
  | nil =>
    intro r res h
    left
    refine ⟨(Option.some_inj.mp h).symm, ?_⟩
    intro s hs
    exact absurd hs (List.not_mem_nil s)
  | cons a t ih =>
    intro r res h
    unfold largestGo at h
    by_cases ha : a.length > r.length
    · rw [if_pos ha] at h
      rcases ih a res h with ⟨rfl, hall⟩ | ⟨l₁, l₂, rfl, hlt, hbefore, hafter⟩
      · right
        exact ⟨[], t, rfl, ha, by intro s hs; exact absurd hs (List.not_mem_nil s), hall⟩
      · right
        refine ⟨a :: l₁, l₂, rfl, Nat.lt_trans ha hlt, ?_, hafter⟩
        intro s hs
        rcases List.mem_cons.mp hs with rfl | hs
        · exact hlt
        · exact hbefore s hs
    · rw [if_neg ha] at h
      rcases ih r res h with ⟨rfl, hall⟩ | ⟨l₁, l₂, rfl, hlt, hbefore, hafter⟩
      · left
        refine ⟨rfl, ?_⟩
        intro s hs
        rcases List.mem_cons.mp hs with rfl | hs
        · omega
        · exact hall s hs
      · right
        refine ⟨a :: l₁, l₂, rfl, hlt, ?_, hafter⟩
        intro s hs
        rcases List.mem_cons.mp hs with rfl | hs
        · omega
        · exact hbefore s hs

/-- The fallback's result is nonempty and is the first candidate in document
order whose length is maximal: every earlier candidate is strictly shorter,
every later one is no longer. -/
theorem largestSvg_spec (l : List Str) (res : Str) (h : largestSvg l = some res) :
    0 < res.length
    ∧ ∃ l₁ l₂, l = l₁ ++ res :: l₂
        ∧ (∀ s ∈ l₁, s.length < res.length) ∧ (∀ s ∈ l₂, s.length ≤ res.length) := by
  induction l with
  | nil => exact Option.noConfusion h
  | cons a t ih =>
    unfold largestSvg largestGo at h
    by_cases ha : a.length > 0
    · rw [if_pos ha] at h
      rcases largestGo_acc_spec t a res h with ⟨rfl, hall⟩ | ⟨l₁, l₂, rfl, hlt, hb, hf⟩
      · exact ⟨ha, [], t, rfl, by intro s hs; exact absurd hs (List.not_mem_nil s), hall⟩
      · refine ⟨Nat.lt_trans ha hlt, a :: l₁, l₂, rfl, ?_, hf⟩
        intro s hs
        rcases List.mem_cons.mp hs with rfl | hs
        · exact hlt
        · exact hb s hs
    · rw [if_neg ha] at h
      obtain ⟨hpos, l₁, l₂, rfl, hb, hf⟩ := ih h
      refine ⟨hpos, a :: l₁, l₂, rfl, ?_, hf⟩
      intro s hs
      rcases List.mem_cons.mp hs with rfl | hs
      · omega
      · exact hb s hs

/-- C4: when no selector probe accepts, extraction runs the whole-document
fallback with no size threshold: the result is absent exactly when the
document has no graphic elements (serializations being nonempty), and any
returned serialization belongs to the document and has maximal length. -/
theorem fallback_largest (page : Page)
    (hprobe : probeSelectors (svg_selectors.map page.query) = none)
    (hne : ∀ s ∈ page.docSvgs, s ≠ []) :
    (extract_map_svg page = none ↔ page.docSvgs = [])
    ∧ ∀ res, extract_map_svg page = some res →
        res ∈ page.docSvgs ∧ ∀ s ∈ page.docSvgs, s.length ≤ res.length := by
  have hex : extract_map_svg page = largestSvg page.docSvgs := by
    unfold extract_map_svg
    rw [hprobe]
  constructor
  · rw [hex]
    constructor
    · intro h
      cases hd : page.docSvgs with
      | nil => rfl
      | cons a t =>
        have hz := largestSvg_none _ (hd ▸ h) a (List.mem_cons_self a t)
        have hne₂ := hne a (by rw [hd]; exact List.mem_cons_self a t)
        exact absurd (List.length_eq_zero.mp hz) hne₂
    · intro h
      rw [h]
      rfl
  · intro res h
    rw [hex] at h
    obtain ⟨_, l₁, l₂, hsplit, hb, hf⟩ := largestSvg_spec _ _ h
    constructor
    · rw [hsplit]
      simp
    · intro s hs
      rw [hsplit] at hs
      rcases List.mem_append.mp hs with hs | hs
      · exact Nat.le_of_lt (hb s hs)
      · rcases List.mem_cons.mp hs with rfl | hs
        · exact Nat.le_refl _
        · exact hf s hs

/-- Witness for C4 at a page whose selectors all match nothing and whose
document holds one small graphic element. -/
theorem fallback_largest_witness :
    probeSelectors (svg_selectors.map exFallbackPage.query) = none
    ∧ (∀ s ∈ exFallbackPage.docSvgs, s ≠ [])
    ∧ ((extract_map_svg exFallbackPage = none ↔ exFallbackPage.docSvgs = [])
      ∧ ∀ res, extract_map_svg exFallbackPage = some res →
          res ∈ exFallbackPage.docSvgs
          ∧ ∀ s ∈ exFallbackPage.docSvgs, s.length ≤ res.length) :=
  ⟨rfl, by decide, fallback_largest exFallbackPage rfl (by decide)⟩

/-- C10: the fallback breaks ties by document order: a returned serialization
is preceded only by strictly shorter candidates and followed only by
candidates no longer than it, because a later candidate replaces the current
best only when strictly longer. -/
theorem fallback_tie_first (l : List Str) (res : Str) (h : largestSvg l = some res) :
    ∃ l₁ l₂, l = l₁ ++ res :: l₂
      ∧ (∀ s ∈ l₁, s.length < res.length) ∧ (∀ s ∈ l₂, s.length ≤ res.length) :=
  (largestSvg_spec l res h).2

/-- Witness for C10 on two equal-length candidates: the first is returned. -/
theorem fallback_tie_first_witness :
    largestSvg [str "<a/>", str "<b/>"] = some (str "<a/>")
    ∧ ∃ l₁ l₂, [str "<a/>", str "<b/>"] = l₁ ++ (str "<a/>") :: l₂
        ∧ (∀ s ∈ l₁, s.length < (str "<a/>").length)
        ∧ (∀ s ∈ l₂, s.length ≤ (str "<a/>").length) :=
  ⟨by decide, fallback_tie_first _ _ (by decide)⟩

/-- Witness for C3: under the fixed selector list, the first selector matches
only a small icon and the second the large map graphic. -/
theorem extract_first_accepted_witness :
    (∃ s ∈ (svg_selectors.map exProbe).flatten, s.length > threshold)
    ∧ extract_map_svg ⟨fun sel => Except.ok ((exProbe sel).map Except.ok), []⟩
        = ((svg_selectors.map exProbe).flatten).find? (fun s => s.length > threshold) := by
  have hflat : (svg_selectors.map exProbe).flatten = [smallIcon, bigSvg] := rfl
  have hlen : bigSvg.length > threshold := by
    show (str "<svg>" ++ List.replicate threshold 'a' ++ str "</svg>").length > threshold
    rw [List.length_append, List.length_append, List.length_replicate]
    simp [threshold, str]
  have hw : ∃ s ∈ (svg_selectors.map exProbe).flatten, s.length > threshold := by
    rw [hflat]
    exact ⟨bigSvg, by simp, hlen⟩
  exact ⟨hw, extract_first_accepted exProbe [] hw⟩

/-- Witness for C6: the first selector's probe sees one small element and then
an evaluation error; probing falls through to the remaining selectors. -/
theorem probe_error_skips_selector_witness :
    (∀ s ∈ [smallIcon], s.length ≤ threshold)
    ∧ (probeSelectors
          (Except.ok ([smallIcon].map Except.ok ++ Except.error () :: []) :: [])
        = probeSelectors []
      ∧ probeSelectors (Except.error () :: []) = probeSelectors []) :=
  ⟨by decide, probe_error_skips_selector [smallIcon] [] [] (by decide)⟩

/-- One loop iteration, split into its filesystem, count, and failure-list
components. -/
theorem processTarget_eq (fs : Files) (cnt : Nat) (failed : List String)
    (p : Target × TargetEnv) :
    processTarget (fs, cnt, failed) p
      = (stepFs fs p,
         (if succeedsB p.2 then cnt + 1 else cnt),
         (if succeedsB p.2 then failed else failed ++ [p.1.name])) := by
  obtain ⟨t, env⟩ := p
  rcases hres : env.extractResult with e | os
  · simp [processTarget, stepFs, succeedsB, hres]
  · rcases os with _ | s
    · simp [processTarget, stepFs, succeedsB, hres]
    · by_cases hs : s.isEmpty
      · simp [processTarget, stepFs, succeedsB, hres, hs]
      · by_cases hw : env.writeOk
        · simp [processTarget, stepFs, succeedsB, hres, hs, hw]
        · simp [processTarget, stepFs, succeedsB, hres, hs, hw]

/-- The whole loop, split into its three components: the filesystem fold, the
count of succeeding targets, and the in-order names of the failing ones. -/
theorem run_loop_components (pairs : List (Target × TargetEnv)) :
    ∀ (fs : Files) (cnt : Nat) (failed : List String),
    List.foldl processTarget (fs, cnt, failed) pairs
      = (List.foldl stepFs fs pairs,
         cnt + (pairs.countP fun p => succeedsB p.2),
         failed ++ (pairs.filter fun p => !succeedsB p.2).map fun p => p.1.name) := by
  induction pairs with
  | nil => intro fs cnt failed; simp
  | cons p rest ih =>
    intro fs cnt failed
    rw [List.foldl_cons, processTarget_eq, ih, List.foldl_cons]
    by_cases h : succeedsB p.2
    · simp [h, List.countP_cons, List.filter_cons]
      omega
    · simp [h, List.countP_cons, List.filter_cons]

/-- C9: every target contributes exactly one outcome: the success count plus
the number of failure entries equals the number of targets, and the failure
list is exactly the names of the non-succeeding targets in list order. -/
theorem summary_partition (pairs : List (Target × TargetEnv)) (fs : Files) :
    (run_loop pairs fs).2.1 + (run_loop pairs fs).2.2.length = pairs.length
    ∧ (run_loop pairs fs).2.2
        = (pairs.filter fun p => !succeedsB p.2).map fun p => p.1.name := by
  unfold run_loop
  rw [run_loop_components]
  refine ⟨?_, by simp⟩
  simp only [List.nil_append, List.length_map, ← List.countP_eq_length_filter]
  have h := List.length_eq_countP_add_countP (p := fun p : Target × TargetEnv => succeedsB p.2)
    (l := pairs)
  have hcong : (fun a : Target × TargetEnv => decide ¬succeedsB a.2 = true)
      = (fun p : Target × TargetEnv => !succeedsB p.2) := by
    funext a
    cases hs : succeedsB a.2 <;> simp [hs]
  rw [hcong] at h
  simp only [Nat.zero_add]
  omega

/-- C5: in a run where exactly one target fails extraction (absent result or
propagated error) and all others succeed, the run completes with N-1
successes out of N and a failure list holding exactly that target's name;
the targets after the failing one are still processed. -/
theorem single_failure_isolated (pre post : List (Target × TargetEnv))
    (t : Target) (env : TargetEnv) (fs : Files)
    (hpre : ∀ q ∈ pre, succeedsB q.2 = true)
    (hpost : ∀ q ∈ post, succeedsB q.2 = true)
    (henv : env.extractResult = Except.error () ∨ env.extractResult = Except.ok none) :
    ∃ g : Files,
      run_main true (pre ++ (t, env) :: post) fs
        = Except.ok (g, ⟨(pre ++ (t, env) :: post).length,
                         (pre ++ (t, env) :: post).length - 1,
                         [t.name]⟩) := by
  have hfail : succeedsB env = false := by
    rcases henv with h | h <;> simp [succeedsB, h]
  refine ⟨List.foldl stepFs fs (pre ++ (t, env) :: post), ?_⟩
  unfold run_main run_loop
  rw [run_loop_components]
  simp only [if_true]
  have hcount : ((pre ++ (t, env) :: post).countP fun p => succeedsB p.2)
      = pre.length + post.length := by
    rw [List.countP_append, List.countP_cons]
    have h₁ : (pre.countP fun p => succeedsB p.2) = pre.length :=
      List.countP_eq_length.mpr hpre
    have h₂ : (post.countP fun p => succeedsB p.2) = post.length :=
      List.countP_eq_length.mpr hpost
    simp [h₁, h₂, hfail]
  have hfilter : ((pre ++ (t, env) :: post).filter fun p => !succeedsB p.2)
      = [(t, env)] := by
    rw [List.filter_append, List.filter_cons]
    have h₁ : (pre.filter fun p => !succeedsB p.2) = [] :=
      List.filter_eq_nil_iff.mpr (by intro a ha; simp [hpre a ha])
    have h₂ : (post.filter fun p => !succeedsB p.2) = [] :=
      List.filter_eq_nil_iff.mpr (by intro a ha; simp [hpost a ha])
    simp [h₁, h₂, hfail]
  rw [hcount, hfilter]
  have hlen : (pre ++ (t, env) :: post).length = pre.length + post.length + 1 := by
    simp only [List.length_append, List.length_cons]
    omega
  rw [hlen]
  simp

/-- Witness for C5: three targets where the middle one's extraction is absent
and both others succeed. -/
theorem single_failure_isolated_witness :
    (∀ q ∈ [(exTargetA, exEnvOk)], succeedsB q.2 = true)
    ∧ (∀ q ∈ [(exTargetC, exEnvOk)], succeedsB q.2 = true)
    ∧ (exEnvAbsent.extractResult = Except.error ()
        ∨ exEnvAbsent.extractResult = Except.ok none)
    ∧ ∃ g : Files,
        run_main true ([(exTargetA, exEnvOk)] ++ (exTargetB, exEnvAbsent) :: [(exTargetC, exEnvOk)]) emptyFiles
          = Except.ok (g, ⟨([(exTargetA, exEnvOk)] ++ (exTargetB, exEnvAbsent) :: [(exTargetC, exEnvOk)]).length,
                           ([(exTargetA, exEnvOk)] ++ (exTargetB, exEnvAbsent) :: [(exTargetC, exEnvOk)]).length - 1,
                           [exTargetB.name]⟩) :=
  ⟨by decide, by decide, Or.inr rfl,
    single_failure_isolated [(exTargetA, exEnvOk)] [(exTargetC, exEnvOk)]
      exTargetB exEnvAbsent emptyFiles (by decide) (by decide) (Or.inr rfl)⟩

/-- The file names written by a run, one step at a time. -/
theorem writtenNames_cons (p : Target × TargetEnv) (rest : List (Target × TargetEnv)) :
    writtenNames (p :: rest)
      = if succeedsB p.2 then (p.1.name ++ ".svg") :: writtenNames rest
        else writtenNames rest := by
  unfold writtenNames
  rw [List.filter_cons]
  by_cases h : succeedsB p.2 <;> simp [h]

/-- Pointwise description of one filesystem step: a succeeding target
overwrites its own output file with the normalized markup and leaves every
other file unchanged. -/
theorem stepFs_point (p : Target × TargetEnv) (g : Files) (m : String) :
    stepFs g p m
      = if succeedsB p.2 = true ∧ m = p.1.name ++ ".svg"
        then writtenContent p.2 else g m := by
  rcases hres : p.2.extractResult with e | os
  · have hsucc : succeedsB p.2 = false := by simp [succeedsB, hres]
    simp [stepFs, hres, hsucc]
  · rcases os with _ | s
    · have hsucc : succeedsB p.2 = false := by simp [succeedsB, hres]
      simp [stepFs, hres, hsucc]
    · by_cases hc : (!s.isEmpty && p.2.writeOk) = true
      · have hsucc : succeedsB p.2 = true := by simp [succeedsB, hres, hc]
        simp only [stepFs, hres, hc, if_true, hsucc, writtenContent, writeFile, true_and]
      · have hsucc : succeedsB p.2 = false := by
          unfold succeedsB
          rw [hres]
          exact Bool.eq_false_iff.mpr hc
        simp [stepFs, hres, hc, hsucc]

/-- A run leaves every file it does not write unchanged. -/
theorem stepFold_untouched (pairs : List (Target × TargetEnv)) :
    ∀ (fs : Files) (n : String), n ∉ writtenNames pairs →
      List.foldl stepFs fs pairs n = fs n := by
  induction pairs with
  | nil => intro fs n _; rfl
  | cons p rest ih =>
    intro fs n hn
    rw [writtenNames_cons] at hn
    rw [List.foldl_cons]
    by_cases h : succeedsB p.2
    · rw [if_pos h] at hn
      simp only [List.mem_cons, not_or] at hn
      rw [ih _ n hn.2, stepFs_point]
      simp [hn.1]
    · rw [if_neg h] at hn
      rw [ih _ n hn, stepFs_point]
      simp [h]

/-- Two filesystems agreeing outside the written files are mapped by a run to
filesystems agreeing everywhere. -/
theorem stepFold_agree (pairs : List (Target × TargetEnv)) :
    ∀ (fs₁ fs₂ : Files),
      (∀ n, n ∉ writtenNames pairs → fs₁ n = fs₂ n) →
      ∀ n, List.foldl stepFs fs₁ pairs n = List.foldl stepFs fs₂ pairs n := by
  induction pairs with
  | nil =>
    intro fs₁ fs₂ h n
    exact h n (by simp [writtenNames])
  | cons p rest ih =>
    intro fs₁ fs₂ h n
    rw [List.foldl_cons, List.foldl_cons]
    apply ih
    intro m hm
    rw [stepFs_point, stepFs_point]
    by_cases hcond : succeedsB p.2 = true ∧ m = p.1.name ++ ".svg"
    · simp [hcond]
    · simp only [if_neg hcond]
      apply h
      rw [writtenNames_cons]
      by_cases hs : succeedsB p.2 = true
      · rw [if_pos hs]
        simp only [List.mem_cons, not_or]
        exact ⟨fun hm2 => hcond ⟨hs, hm2⟩, hm⟩
      · rw [if_neg hs]
        exact hm

/-- C8: running the loop twice with the same per-target extraction results
leaves the filesystem of the first run unchanged — each write overwrites the
file rather than appending or duplicating — so the outputs are
byte-identical. -/
theorem run_twice_identical (pairs : List (Target × TargetEnv)) (fs : Files) :
    (run_loop pairs (run_loop pairs fs).1).1 = (run_loop pairs fs).1
    ∧ ∀ (g : Files) (n : String) (c : Str), writeFile g n c n = some c := by
  constructor
  · have hfs : ∀ g : Files, (run_loop pairs g).1 = List.foldl stepFs g pairs := by
      intro g
      unfold run_loop
      rw [run_loop_components]
    rw [hfs, hfs]
    funext n
    exact stepFold_agree pairs _ _ (fun m hm => stepFold_untouched pairs fs m hm) n
  · intro g n c
    simp [writeFile]

end TarkovMaps
